import Mathlib

/-!
Verification of the rate limiting and request-execution subsystem of the
bcra-connector library, embedded shallowly from
src/bcra_connector/rate_limiter.py and src/bcra_connector/bcra_connector.py.

Timestamps and durations are modelled as rationals (the Python code uses
floats from time.monotonic, but every claim here is about exact control
flow and comparisons, not float rounding).  The mutable deque window is
modelled as a list, mutated by explicit state passing; each operation takes
the current monotonic time as a parameter.  Exceptions are modelled with
Except.
-/

deriving instance DecidableEq for Except

namespace BcraConnector

/-- Embedding of RateLimitConfig after successful validation in
__post_init__: calls, period, and the resolved burst value. -/
structure RateLimitConfig where
  calls : Int
  period : Rat
  burst : Int
deriving Repr, DecidableEq

/-- Embedding of RateLimitConfig.__post_init__: validates the arguments in
source order (calls, then period, then burst) and defaults burst to calls
when it was not supplied. -/
def mkRateLimitConfig (calls : Int) (period : Rat) (burst0 : Option Int) :
    Except String RateLimitConfig :=
  if calls ≤ 0 then .error "calls must be greater than 0"
  else if period ≤ 0 then .error "period must be greater than 0"
  else
    match burst0 with
    | some b =>
        if b < calls then .error "burst must be greater than or equal to calls"
        else .ok ⟨calls, period, b⟩
    | none => .ok ⟨calls, period, calls⟩

/-- Embedding of the RateLimiter state: the validated config, the deque of
admission timestamps (front = oldest), and the _last_check field (written
by __init__ and reset, never read). -/
structure RateLimiter where
  config : RateLimitConfig
  window : List Rat
  lastCheck : Rat
deriving Repr, DecidableEq

/-- Embedding of RateLimiter._clean_old_timestamps: pop entries from the
front of the window while they are strictly older than period. -/
def cleanOldTimestamps (period : Rat) (now : Rat) : List Rat → List Rat
  | [] => []
  | t :: ts =>
      if now - t > period then cleanOldTimestamps period now ts
      else t :: ts

/-- Embedding of RateLimiter.acquire.  Returns the raised message or the
returned delay, together with the post-state (the purge mutates the window
even on the raising path, exactly as in the source). -/
def RateLimiter.acquire (rl : RateLimiter) (now : Rat) :
    Except String Rat × RateLimiter :=
  let w := cleanOldTimestamps rl.config.period now rl.window
  if (w.length : Int) ≥ rl.config.burst then
    (.error ("Rate limit exceeded: Maximum burst capacity of " ++
        toString rl.config.burst ++ " requests reached"),
     { rl with window := w })
  else if (w.length : Int) ≥ rl.config.calls then
    let delay := w.headD 0 + rl.config.period + 1 / 100 - now
    if delay > 0 then (.ok delay, { rl with window := w })
    else (.ok 0, { rl with window := w ++ [now] })
  else (.ok 0, { rl with window := w ++ [now] })

/-- Embedding of RateLimiter.reset. -/
def RateLimiter.reset (rl : RateLimiter) (now : Rat) : RateLimiter :=
  { rl with window := [], lastCheck := now }

/-- Embedding of the RateLimiter.current_usage property. -/
def RateLimiter.currentUsage (rl : RateLimiter) (now : Rat) :
    Nat × RateLimiter :=
  let w := cleanOldTimestamps rl.config.period now rl.window
  (w.length, { rl with window := w })

/-- Embedding of the RateLimiter.is_limited property. -/
def RateLimiter.isLimited (rl : RateLimiter) (now : Rat) :
    Bool × RateLimiter :=
  let w := cleanOldTimestamps rl.config.period now rl.window
  (decide ((w.length : Int) ≥ rl.config.burst) ||
     (decide ((w.length : Int) ≥ rl.config.calls) && !w.isEmpty &&
      decide (now - w.headD 0 ≤ rl.config.period)),
   { rl with window := w })

/-- Embedding of RateLimiter.remaining_calls. -/
def RateLimiter.remainingCalls (rl : RateLimiter) (now : Rat) :
    Int × RateLimiter :=
  let w := cleanOldTimestamps rl.config.period now rl.window
  (max 0 (rl.config.calls - (w.length : Int)),
   { rl with window := w })

/-- Runs n acquire calls in immediate succession (all at the same monotonic
time now), collecting the n results in call order. -/
def RateLimiter.acquireRun (rl : RateLimiter) (now : Rat) :
    Nat → List (Except String Rat) × RateLimiter
  | 0 => ([], rl)
  | n + 1 =>
      let prev := rl.acquireRun now n
      let step := prev.2.acquire now
      (prev.1 ++ [step.1], step.2)

/-!
Embedding of BCRAConnector._make_request from bcra_connector.py.  The HTTP
transport is modelled by the outcome each attempt would observe; the rate
limiting sleep at the top of the loop is orthogonal to the retry logic and
is not part of this model.  The retry loop is embedded with explicit fuel:
makeRequest starts the loop with fuel MAX_RETRIES at attempt 0, matching
the Python for-loop over range(MAX_RETRIES); the raise after the loop is
the fuel-exhausted case.
-/

def BASE_URL : String := "https://api.bcra.gob.ar"

def MAX_RETRIES : Nat := 3

def RETRY_DELAY : Nat := 1

/-- The full request URL, BASE_URL joined with the endpoint. -/
def requestUrl (endpoint : String) : String := BASE_URL ++ "/" ++ endpoint

/-- What response.json() yields: a decoding failure, or a decoded object
with an optional errorMessages list (rawRepr stands for str(error_data)). -/
inductive JsonBody where
  | invalid : JsonBody
  | valid (errorMessages : Option (List String)) (rawRepr : String) : JsonBody
deriving Repr, DecidableEq

/-- An HTTP response: status code, body, and transport reason phrase. -/
structure HttpResponse where
  status : Nat
  body : JsonBody
  reason : String
deriving Repr, DecidableEq

/-- What the transport does on one attempt: requests.Timeout,
requests.ConnectionError (with or without an SSL signature, i.e.
isinstance URLLibSSLError or an SSL marker in the message), some other
requests.RequestException, or an actual HTTP response. -/
inductive AttemptOutcome where
  | timeout : AttemptOutcome
  | connFailure (sslSignature : Bool) : AttemptOutcome
  | otherException (msg : String) : AttemptOutcome
  | response (resp : HttpResponse) : AttemptOutcome
deriving Repr, DecidableEq

/-- Condition under which response.raise_for_status() raises HTTPError. -/
def statusIsError (status : Nat) : Bool := 400 ≤ status && status < 600

/-- Message raised for a 404 response. -/
def notFoundMsg (url : String) (body : JsonBody) : String :=
  let base := "HTTP 404: Resource not found at " ++ url
  match body with
  | .valid (some msgs) _ => base ++ (": " ++ String.intercalate ", " msgs)
  | _ => base

/-- Message raised for a non-404 error status. -/
def httpErrorMsg (url : String) (status : Nat) (body : JsonBody)
    (reason : String) : String :=
  let base := "HTTP " ++ toString status ++ " for " ++ url
  match body with
  | .valid (some msgs) _ => base ++ (": " ++ String.intercalate ", " msgs)
  | .valid none raw => base ++ (": " ++ raw)
  | .invalid => base ++ (": " ++ reason)

/-- Message raised when all attempts time out. -/
def timeoutFinalMsg (url : String) : String :=
  "Request timed out after " ++ toString MAX_RETRIES ++ " attempts to " ++ url

/-- Message raised when all attempts hit non-SSL connection errors. -/
def connFinalMsg (url : String) : String :=
  "API request failed: Connection error to " ++ url

/-- Message raised immediately on an SSL-signature connection error. -/
def sslMsg (url : String) : String :=
  "SSL verification failed for " ++ url

/-- Message raised when a success-status body fails JSON decoding. -/
def invalidJsonMsg (url : String) : String :=
  "Invalid JSON response from " ++ url

/-- Message raised when other request exceptions exhaust the attempts. -/
def otherFinalMsg (m : String) : String :=
  "API request failed after " ++ toString MAX_RETRIES ++ " attempts: " ++ m

/-- Result of classifying one attempt: return the decoded body, raise a
BCRAApiError right now (not caught by the retry handlers), or a caught
transient failure carrying the message that the final attempt would raise. -/
inductive StepResult where
  | success (body : JsonBody) : StepResult
  | fatal (msg : String) : StepResult
  | retryable (finalMsg : String) : StepResult
deriving Repr, DecidableEq

/-- One iteration body of the _make_request loop, minus the retry
bookkeeping: classification of the attempt outcome exactly as the
try/except chain does it. -/
def attemptStep (url : String) : AttemptOutcome → StepResult
  | .timeout => .retryable (timeoutFinalMsg url)
  | .connFailure ssl =>
      if ssl then .fatal (sslMsg url) else .retryable (connFinalMsg url)
  | .otherException m => .retryable (otherFinalMsg m)
  | .response r =>
      if statusIsError r.status then
        if r.status = 404 then .fatal (notFoundMsg url r.body)
        else .fatal (httpErrorMsg url r.status r.body r.reason)
      else
        match r.body with
        | .invalid => .fatal (invalidJsonMsg url)
        | b => .success b

/-- Observable behaviour of one _make_request call: the returned JSON or
raised message, the number of attempts actually issued, and the list of
backoff sleeps performed (in seconds), in order. -/
structure RunResult where
  result : Except String JsonBody
  attemptsMade : Nat
  sleeps : List Nat
deriving Repr, DecidableEq

/-- The retry loop of _make_request.  fuel counts the attempts still
allowed (so attempt = MAX_RETRIES - fuel throughout); fuel = 1 is the
final attempt, after which a transient failure raises instead of sleeping
and retrying. -/
def requestLoop (url : String) (outcomes : Nat → AttemptOutcome)
    (fuel attempt : Nat) (sleeps : List Nat) : RunResult :=
  if _h0 : fuel = 0 then ⟨.error "Maximum retry attempts reached", attempt, sleeps⟩
  else
    match attemptStep url (outcomes attempt) with
    | .success b => ⟨.ok b, attempt + 1, sleeps⟩
    | .fatal m => ⟨.error m, attempt + 1, sleeps⟩
    | .retryable m =>
        if fuel = 1 then ⟨.error m, attempt + 1, sleeps⟩
        else
          requestLoop url outcomes (fuel - 1) (attempt + 1)
            (sleeps ++ [RETRY_DELAY * 2 ^ attempt])
termination_by fuel
decreasing_by omega

/-- Embedding of BCRAConnector._make_request, parameterized by the
transport behaviour of each attempt index. -/
def makeRequest (endpoint : String) (outcomes : Nat → AttemptOutcome) :
    RunResult :=
  requestLoop (requestUrl endpoint) outcomes MAX_RETRIES 0 []

/-- Outcomes that the retry handlers catch (everything except a response
and except an SSL-signature connection error, which raise through). -/
def isRetryable : AttemptOutcome → Bool
  | .timeout => true
  | .connFailure ssl => !ssl
  | .otherException _ => true
  | .response _ => false

/-- The substring-containment relation used by the error-classification
claims: the characters of sub occur contiguously in s. -/
def containsSubstr (s sub : String) : Prop := sub.data <:+: s.data

instance (s sub : String) : Decidable (containsSubstr s sub) :=
  List.decidableInfix sub.data s.data

end BcraConnector

namespace BcraConnector

/-! Helper lemmas about the sliding-window purge and the config. -/

theorem cleanOld_suffix (p now : Rat) (xs : List Rat) :
    cleanOldTimestamps p now xs <:+ xs := by
  induction xs with
  | nil => simp [cleanOldTimestamps]
  | cons t ts ih =>
      by_cases h : now - t > p
      · simpa [cleanOldTimestamps, h] using ih.trans (List.suffix_cons t ts)
      · simp [cleanOldTimestamps, h]

theorem cleanOld_length_le (p now : Rat) (xs : List Rat) :
    (cleanOldTimestamps p now xs).length ≤ xs.length :=
  (cleanOld_suffix p now xs).sublist.length_le

theorem cleanOld_sorted {xs : List Rat} (h : List.Sorted (· ≤ ·) xs)
    (p now : Rat) : List.Sorted (· ≤ ·) (cleanOldTimestamps p now xs) :=
  List.Pairwise.sublist (cleanOld_suffix p now xs).sublist h

theorem cleanOld_mem {p now t : Rat} {xs : List Rat}
    (h : t ∈ cleanOldTimestamps p now xs) : t ∈ xs :=
  (cleanOld_suffix p now xs).sublist.subset h

theorem cleanOld_head_fresh {p now t : Rat} {ts xs : List Rat}
    (h : cleanOldTimestamps p now xs = t :: ts) : now - t ≤ p := by
  induction xs with
  | nil => simp [cleanOldTimestamps] at h
  | cons x l ih =>
      simp only [cleanOldTimestamps] at h
      split at h
      · exact ih h
      · next hc =>
          obtain ⟨rfl, rfl⟩ : x = t ∧ l = ts := by
            exact ⟨(List.cons.injEq ..).mp h |>.1, (List.cons.injEq ..).mp h |>.2⟩
          exact le_of_not_lt hc

theorem cleanOld_fresh {xs : List Rat} (hs : List.Sorted (· ≤ ·) xs)
    (p now : Rat) : ∀ t ∈ cleanOldTimestamps p now xs, now - t ≤ p := by
  intro t ht
  obtain ⟨u, us, he⟩ : ∃ u us, cleanOldTimestamps p now xs = u :: us := by
    cases hcl : cleanOldTimestamps p now xs with
    | nil => rw [hcl] at ht; simp at ht
    | cons u us => exact ⟨u, us, rfl⟩
  have hhead := cleanOld_head_fresh he
  have hsorted := cleanOld_sorted hs p now
  rw [he] at ht hsorted
  rcases List.mem_cons.mp ht with rfl | hmem
  · exact hhead
  · have hle : u ≤ t := (List.sorted_cons.mp hsorted).1 t hmem
    linarith

theorem mk_ok_inv {c : Int} {p : Rat} {b : Option Int} {cfg : RateLimitConfig}
    (h : mkRateLimitConfig c p b = .ok cfg) :
    0 < cfg.calls ∧ 0 < cfg.period ∧ cfg.calls ≤ cfg.burst := by
  unfold mkRateLimitConfig at h
  split at h
  · exact absurd h (by simp)
  · next hc =>
      split at h
      · exact absurd h (by simp)
      · next hp =>
          split at h
          · next x =>
              split at h
              · exact absurd h (by simp)
              · next hb =>
                  obtain rfl : (⟨c, p, x⟩ : RateLimitConfig) = cfg :=
                    (Except.ok.injEq ..).mp h
                  exact ⟨by show 0 < c; omega,
                    by show (0 : Rat) < p; linarith [not_le.mp hp],
                    by show c ≤ x; omega⟩
          · obtain rfl : (⟨c, p, c⟩ : RateLimitConfig) = cfg :=
              (Except.ok.injEq ..).mp h
            exact ⟨by show 0 < c; omega,
              by show (0 : Rat) < p; linarith [not_le.mp hp], le_refl c⟩

theorem sorted_append_now {xs : List Rat} (hs : List.Sorted (· ≤ ·) xs)
    {now : Rat} (h : ∀ t ∈ xs, t ≤ now) :
    List.Sorted (· ≤ ·) (xs ++ [now]) := by
  rw [List.Sorted, List.pairwise_append]
  exact ⟨hs, List.pairwise_singleton _ _, fun a ha b hb => by
    rw [List.mem_singleton] at hb
    exact hb ▸ h a ha⟩

/-! Helper lemmas about the request executor model. -/

theorem containsSubstr_append_left {a sub : String} (b : String)
    (h : containsSubstr a sub) : containsSubstr (a ++ b) sub := by
  obtain ⟨s, t, he⟩ := h
  refine ⟨s, t ++ b.data, ?_⟩
  rw [String.data_append, ← he]
  simp

theorem attemptStep_retryable (url : String) (o : AttemptOutcome)
    (h : isRetryable o = true) : ∃ m, attemptStep url o = .retryable m := by
  cases o with
  | timeout => exact ⟨_, rfl⟩
  | connFailure ssl =>
      cases ssl with
      | false => exact ⟨_, rfl⟩
      | true => simp [isRetryable] at h
  | otherException m => exact ⟨_, rfl⟩
  | response r => simp [isRetryable] at h

end BcraConnector

section Claims

open BcraConnector

/-- Claim C1: with calls=10, period=1.0, burst=20, the first 20 acquire()
calls were claimed to return zero delay and the 21st a positive delay.
Evaluating the code at this exact input shows the claim fails: in 21
immediate acquire() calls only the first 10 return zero delay, and calls
11 through 21 each return the positive delay 101/100 (period + the 0.01
buffer) without raising, because the zero-delay append path is guarded by
calls, not burst.  The configuration itself is valid. -/
theorem c1_burst_window_code_bug :
    mkRateLimitConfig 10 1 (some 20) = .ok ⟨10, 1, 20⟩ ∧
    (RateLimiter.acquireRun ⟨⟨10, 1, 20⟩, [], 0⟩ 0 21).1 =
      List.replicate 10 (.ok 0) ++ List.replicate 11 (.ok (101 / 100)) := by
  constructor
  · norm_num [mkRateLimitConfig]
  · norm_num [RateLimiter.acquireRun, RateLimiter.acquire, cleanOldTimestamps,
      List.replicate]

/-- Claim C2 counterexample: a RateLimiter state reached by ten immediate
admissions (window of ten timestamps, as c1 shows the code produces).  The
next acquire() returns normally with the positive delay 101/100, yet the
window is left with the same 10 entries: no timestamp is appended, so the
window size does not increase on this normal return, refuting the claim
that every normal return appends. -/
theorem c2_counterexample :
    (RateLimiter.acquire ⟨⟨10, 1, 20⟩, List.replicate 10 0, 0⟩ 0).1 =
      .ok (101 / 100) ∧
    (RateLimiter.acquire ⟨⟨10, 1, 20⟩, List.replicate 10 0, 0⟩ 0).2.window =
      List.replicate 10 0 := by
  constructor <;>
    norm_num [RateLimiter.acquire, cleanOldTimestamps, List.replicate]

/-- Claim C2 as amended: on every normal return, acquire() returns a
nonnegative delay; it records the admission timestamp (the purged window
grows by exactly one) precisely when it returns zero delay, and on a
normal return with positive delay the window is left as the purged window,
with no timestamp recorded. -/
theorem c2_append_iff_zero_delay (rl : RateLimiter) (now d : Rat)
    (rl2 : RateLimiter) (h : rl.acquire now = (.ok d, rl2)) :
    0 ≤ d ∧
      ((d = 0 ∧ rl2.window =
          cleanOldTimestamps rl.config.period now rl.window ++ [now]) ∨
        (0 < d ∧ rl2.window =
          cleanOldTimestamps rl.config.period now rl.window)) := by
  simp only [RateLimiter.acquire] at h
  split at h
  · exact absurd h (by simp)
  · split at h
    · split at h
      · next hd =>
          obtain ⟨h1, h2⟩ := (Prod.mk.injEq ..).mp h
          obtain rfl := (Except.ok.injEq ..).mp h1
          refine ⟨le_of_lt hd, Or.inr ⟨hd, ?_⟩⟩
          rw [← h2]
      · obtain ⟨h1, h2⟩ := (Prod.mk.injEq ..).mp h
        obtain rfl := (Except.ok.injEq ..).mp h1
        exact ⟨le_refl 0, Or.inl ⟨rfl, by rw [← h2]⟩⟩
    · obtain ⟨h1, h2⟩ := (Prod.mk.injEq ..).mp h
      obtain rfl := (Except.ok.injEq ..).mp h1
      exact ⟨le_refl 0, Or.inl ⟨rfl, by rw [← h2]⟩⟩

/-- Witness for c2_append_iff_zero_delay: the very first acquire() on a
fresh limiter returns zero delay and appends its timestamp. -/
theorem c2_witness :
    (0 : Rat) ≤ 0 ∧
      (((0 : Rat) = 0 ∧
          (⟨⟨10, 1, 20⟩, [0], 0⟩ : RateLimiter).window =
            cleanOldTimestamps 1 0 [] ++ [0]) ∨
        ((0 : Rat) < 0 ∧
          (⟨⟨10, 1, 20⟩, [0], 0⟩ : RateLimiter).window =
            cleanOldTimestamps 1 0 [])) :=
  c2_append_iff_zero_delay ⟨⟨10, 1, 20⟩, [], 0⟩ 0 0 ⟨⟨10, 1, 20⟩, [0], 0⟩
    (by norm_num [RateLimiter.acquire, cleanOldTimestamps])

/-- Claim C4: RateLimitConfig construction succeeds exactly when the
arguments are valid (calls positive, period positive, burst when given at
least calls), fails with the configuration error exactly on the
complementary condition, and an omitted burst defaults to calls. -/
theorem c4_config_validation (c : Int) (p : Rat) (b : Option Int) :
    ((∃ cfg, mkRateLimitConfig c p b = .ok cfg) ↔
      (0 < c ∧ 0 < p ∧ ∀ x, b = some x → c ≤ x)) ∧
    ((∃ m, mkRateLimitConfig c p b = .error m) ↔
      (c ≤ 0 ∨ p ≤ 0 ∨ ∃ x, b = some x ∧ x < c)) ∧
    (∀ cfg, mkRateLimitConfig c p none = .ok cfg → cfg.burst = cfg.calls) := by
  have hok : (∃ cfg, mkRateLimitConfig c p b = .ok cfg) ↔
      (0 < c ∧ 0 < p ∧ ∀ x, b = some x → c ≤ x) := by
    constructor
    · rintro ⟨cfg, h⟩
      unfold mkRateLimitConfig at h
      split at h
      · exact absurd h (by simp)
      · next hc =>
          split at h
          · exact absurd h (by simp)
          · next hp =>
              refine ⟨by omega, not_le.mp hp, ?_⟩
              split at h
              · next x =>
                  split at h
                  · exact absurd h (by simp)
                  · next hb =>
                      intro y hy
                      obtain rfl := (Option.some.injEq ..).mp hy
                      omega
              · intro y hy
                exact absurd hy (by simp)
    · rintro ⟨hc, hp, hb⟩
      unfold mkRateLimitConfig
      rw [if_neg (not_le.mpr hc), if_neg (not_le.mpr hp)]
      cases b with
      | none => exact ⟨_, rfl⟩
      | some x =>
          refine ⟨⟨c, p, x⟩, ?_⟩
          show (if x < c then
              (Except.error "burst must be greater than or equal to calls" :
                Except String RateLimitConfig)
            else Except.ok (RateLimitConfig.mk c p x)) =
            Except.ok (RateLimitConfig.mk c p x)
          rw [if_neg (not_lt.mpr (hb x rfl))]
  refine ⟨hok, ?_, ?_⟩
  · have hsplit : ∀ r : Except String RateLimitConfig,
        (∃ m, r = .error m) ↔ ¬(∃ cfg, r = .ok cfg) := by
      intro r; cases r <;> simp
    rw [hsplit, hok]
    constructor
    · intro h
      by_cases h1 : 0 < c
      · by_cases h2 : 0 < p
        · refine Or.inr (Or.inr ?_)
          by_contra hno
          push_neg at hno
          exact h ⟨h1, h2, fun x hx => hno x hx⟩
        · exact Or.inr (Or.inl (not_lt.mp h2))
      · exact Or.inl (not_lt.mp h1)
    · rintro (h | h | ⟨x, rfl, hx⟩) ⟨h1, h2, h3⟩
      · omega
      · linarith
      · exact absurd (h3 x rfl) (not_le.mpr hx)
  · intro cfg h
    simp only [mkRateLimitConfig] at h
    split at h
    · exact absurd h (by simp)
    · split at h
      · exact absurd h (by simp)
      · obtain rfl := (Except.ok.injEq ..).mp h
        rfl

/-- Witness for c4_config_validation at the connector's default
configuration arguments. -/
theorem c4_witness :
    ((∃ cfg, mkRateLimitConfig 10 1 (some 20) = .ok cfg) ↔
      (0 < (10 : Int) ∧ 0 < (1 : Rat) ∧
        ∀ x, (some 20 : Option Int) = some x → (10 : Int) ≤ x)) ∧
    ((∃ m, mkRateLimitConfig 10 1 (some 20) = .error m) ↔
      ((10 : Int) ≤ 0 ∨ (1 : Rat) ≤ 0 ∨
        ∃ x, (some 20 : Option Int) = some x ∧ x < 10)) ∧
    (∀ cfg, mkRateLimitConfig 10 1 none = .ok cfg →
      cfg.burst = cfg.calls) :=
  c4_config_validation 10 1 (some 20)

/-- Claim C8: for every prior state, immediately after reset() the
current_usage observed at any time is 0, and the next acquire() call (at
any time) returns zero delay, given a validly constructed configuration. -/
theorem c8_reset_zero (c : Int) (p : Rat) (b : Option Int)
    (rl : RateLimiter) (hv : mkRateLimitConfig c p b = .ok rl.config)
    (now now2 now3 : Rat) :
    ((rl.reset now).currentUsage now2).1 = 0 ∧
    ((rl.reset now).acquire now3).1 = .ok 0 := by
  obtain ⟨hc, hp, hcb⟩ := mk_ok_inv hv
  constructor
  · simp [RateLimiter.reset, RateLimiter.currentUsage, cleanOldTimestamps]
  · show (RateLimiter.acquire ⟨rl.config, [], now⟩ now3).1 = .ok 0
    have h1 : ¬ ((((cleanOldTimestamps rl.config.period now3 []).length) : Int)
        ≥ rl.config.burst) := by
      simp only [cleanOldTimestamps, List.length_nil, Nat.cast_zero]
      omega
    have h2 : ¬ ((((cleanOldTimestamps rl.config.period now3 []).length) : Int)
        ≥ rl.config.calls) := by
      simp only [cleanOldTimestamps, List.length_nil, Nat.cast_zero]
      omega
    simp [RateLimiter.acquire, h1, h2]

/-- Witness for c8_reset_zero: a limiter holding one admission, reset at
time 6, observed at 7, acquiring at 8. -/
theorem c8_witness :
    ((RateLimiter.reset ⟨⟨10, 1, 20⟩, [5], 0⟩ 6).currentUsage 7).1 = 0 ∧
    ((RateLimiter.reset ⟨⟨10, 1, 20⟩, [5], 0⟩ 6).acquire 8).1 = .ok 0 :=
  c8_reset_zero 10 1 (some 20) ⟨⟨10, 1, 20⟩, [5], 0⟩
    (by norm_num [mkRateLimitConfig]) 6 7 8

/-- Claim C9: for a validly configured limiter, is_limited is true exactly
when the purged window size has reached calls; the extra burst comparison
and oldest-entry age check in the implementation never change this truth
value, since burst is at least calls and every entry surviving the purge
is within period of now. -/
theorem c9_is_limited_iff (c : Int) (p : Rat) (b : Option Int)
    (rl : RateLimiter) (hv : mkRateLimitConfig c p b = .ok rl.config)
    (now : Rat) :
    ((rl.isLimited now).1 = true ↔
      rl.config.calls ≤
        ((cleanOldTimestamps rl.config.period now rl.window).length : Int)) := by
  obtain ⟨hc, _hp, hcb⟩ := mk_ok_inv hv
  simp only [RateLimiter.isLimited, Bool.or_eq_true, Bool.and_eq_true,
    decide_eq_true_eq, ge_iff_le]
  constructor
  · rintro (h | ⟨⟨h1, _⟩, _⟩)
    · omega
    · exact h1
  · intro h
    right
    have hne : cleanOldTimestamps rl.config.period now rl.window ≠ [] := by
      intro he
      rw [he] at h
      simp only [List.length_nil, Nat.cast_zero] at h
      omega
    obtain ⟨t, ts, he⟩ := List.exists_cons_of_ne_nil hne
    refine ⟨⟨h, ?_⟩, ?_⟩
    · rw [he]
      simp
    · rw [he]
      simpa using cleanOld_head_fresh he

/-- Witness for c9_is_limited_iff: one fresh admission, far below the
steady-state threshold, so both sides are false. -/
theorem c9_witness :
    ((RateLimiter.isLimited ⟨⟨10, 1, 20⟩, [0], 0⟩ 0).1 = true ↔
      (10 : Int) ≤ ((cleanOldTimestamps 1 0 [0]).length : Int)) :=
  c9_is_limited_iff 10 1 (some 20) ⟨⟨10, 1, 20⟩, [0], 0⟩
    (by norm_num [mkRateLimitConfig]) 0

/-- Claim C10: the window invariants kept by every operation of a validly
configured limiter whose window is sorted, within the burst bound, and in
the past: the purge (shared by current_usage, is_limited, remaining_calls)
leaves a sorted window of no greater length all of whose entries are
within period of now; reset empties the window; and acquire leaves a
sorted window within the burst bound, all entries within period of now,
and leaves the window exactly unchanged whenever it raises. -/
theorem c10_invariants (c : Int) (p : Rat) (b : Option Int)
    (rl : RateLimiter) (hv : mkRateLimitConfig c p b = .ok rl.config)
    (hsorted : List.Sorted (· ≤ ·) rl.window)
    (hlen : (rl.window.length : Int) ≤ rl.config.burst)
    (now : Rat) (hmono : ∀ t ∈ rl.window, t ≤ now) :
    (List.Sorted (· ≤ ·) (cleanOldTimestamps rl.config.period now rl.window) ∧
      ((cleanOldTimestamps rl.config.period now rl.window).length : Int) ≤
        rl.config.burst ∧
      ∀ t ∈ cleanOldTimestamps rl.config.period now rl.window,
        now - t ≤ rl.config.period) ∧
    ((rl.currentUsage now).2.window =
        cleanOldTimestamps rl.config.period now rl.window ∧
      (rl.isLimited now).2.window =
        cleanOldTimestamps rl.config.period now rl.window ∧
      (rl.remainingCalls now).2.window =
        cleanOldTimestamps rl.config.period now rl.window) ∧
    (List.Sorted (· ≤ ·) (rl.reset now).window ∧
      (rl.reset now).window.length = 0) ∧
    (∀ r rl2, rl.acquire now = (r, rl2) →
      List.Sorted (· ≤ ·) rl2.window ∧
      ((rl2.window.length : Int) ≤ rl.config.burst) ∧
      (∀ t ∈ rl2.window, now - t ≤ rl.config.period) ∧
      ∀ m, r = .error m → rl2.window = rl.window) := by
  obtain ⟨hc, hp, hcb⟩ := mk_ok_inv hv
  have hclean_sorted := cleanOld_sorted hsorted rl.config.period now
  have hclean_len := cleanOld_length_le rl.config.period now rl.window
  have hclean_fresh := cleanOld_fresh hsorted rl.config.period now
  refine ⟨⟨hclean_sorted, by omega, hclean_fresh⟩, ⟨rfl, rfl, rfl⟩,
    ⟨List.sorted_nil, rfl⟩, ?_⟩
  intro r rl2 h
  have hmem_now :
      ∀ t ∈ cleanOldTimestamps rl.config.period now rl.window,
        t ≤ now := fun t ht => hmono t (cleanOld_mem ht)
  have happend_sorted := sorted_append_now hclean_sorted hmem_now
  have happend_fresh :
      ∀ t ∈ cleanOldTimestamps rl.config.period now rl.window ++ [now],
        now - t ≤ rl.config.period := by
    intro t ht
    rcases List.mem_append.mp ht with hin | hin
    · exact hclean_fresh t hin
    · rw [List.mem_singleton] at hin
      subst hin
      simp only [sub_self]
      linarith
  simp only [RateLimiter.acquire] at h
  split at h
  · next hb1 =>
      obtain ⟨h1, h2⟩ := (Prod.mk.injEq ..).mp h
      subst h2
      refine ⟨hclean_sorted, ?_, hclean_fresh, ?_⟩
      · show ((cleanOldTimestamps rl.config.period now rl.window).length :
            Int) ≤ rl.config.burst
        omega
      · intro m _hm
        show cleanOldTimestamps rl.config.period now rl.window = rl.window
        refine List.Sublist.eq_of_length
          (cleanOld_suffix rl.config.period now rl.window).sublist ?_
        omega
  · next hb1 =>
      split at h
      · next hb2 =>
          split at h
          · obtain ⟨h1, h2⟩ := (Prod.mk.injEq ..).mp h
            subst h2
            refine ⟨hclean_sorted, ?_, hclean_fresh, ?_⟩
            · show ((cleanOldTimestamps rl.config.period now
                  rl.window).length : Int) ≤ rl.config.burst
              omega
            · intro m hm
              rw [← h1] at hm
              exact absurd hm (by simp)
          · obtain ⟨h1, h2⟩ := (Prod.mk.injEq ..).mp h
            subst h2
            refine ⟨happend_sorted, ?_, happend_fresh, ?_⟩
            · show ((cleanOldTimestamps rl.config.period now rl.window ++
                  [now]).length : Int) ≤ rl.config.burst
              simp only [List.length_append, List.length_singleton]
              push_cast
              omega
            · intro m hm
              rw [← h1] at hm
              exact absurd hm (by simp)
      · obtain ⟨h1, h2⟩ := (Prod.mk.injEq ..).mp h
        subst h2
        refine ⟨happend_sorted, ?_, happend_fresh, ?_⟩
        · show ((cleanOldTimestamps rl.config.period now rl.window ++
              [now]).length : Int) ≤ rl.config.burst
          simp only [List.length_append, List.length_singleton]
          push_cast
          omega
        · intro m hm
          rw [← h1] at hm
          exact absurd hm (by simp)

/-- Witness for c10_invariants: the limiter with one admission at time 0,
observed at time 0. -/
theorem c10_witness :
    (List.Sorted (· ≤ ·) (cleanOldTimestamps 1 0 [0]) ∧
      ((cleanOldTimestamps 1 0 [0]).length : Int) ≤ 20 ∧
      ∀ t ∈ cleanOldTimestamps 1 0 [0], (0 : Rat) - t ≤ 1) ∧
    ((RateLimiter.currentUsage ⟨⟨10, 1, 20⟩, [0], 0⟩ 0).2.window =
        cleanOldTimestamps 1 0 [0] ∧
      (RateLimiter.isLimited ⟨⟨10, 1, 20⟩, [0], 0⟩ 0).2.window =
        cleanOldTimestamps 1 0 [0] ∧
      (RateLimiter.remainingCalls ⟨⟨10, 1, 20⟩, [0], 0⟩ 0).2.window =
        cleanOldTimestamps 1 0 [0]) ∧
    (List.Sorted (· ≤ ·) (RateLimiter.reset ⟨⟨10, 1, 20⟩, [0], 0⟩ 0).window ∧
      (RateLimiter.reset ⟨⟨10, 1, 20⟩, [0], 0⟩ 0).window.length = 0) ∧
    (∀ r rl2, RateLimiter.acquire ⟨⟨10, 1, 20⟩, [0], 0⟩ 0 = (r, rl2) →
      List.Sorted (· ≤ ·) rl2.window ∧
      ((rl2.window.length : Int) ≤ 20) ∧
      (∀ t ∈ rl2.window, (0 : Rat) - t ≤ 1) ∧
      ∀ m, r = .error m → rl2.window = [0]) :=
  c10_invariants 10 1 (some 20) ⟨⟨10, 1, 20⟩, [0], 0⟩
    (by norm_num [mkRateLimitConfig]) (by simp) (by simp) 0 (by simp)

/-- Claim C3: when every attempt raises a timeout (respectively a non-SSL
connection error), _make_request makes exactly MAX_RETRIES = 3 attempts at
indices 0, 1, 2, sleeps RETRY_DELAY * 2 ^ attempt after each non-final
failed attempt, and raises the timeout-classified (respectively
connection-failure-classified) error on the third failure.  Only the first
three outcomes are constrained, so the result is independent of whatever a
hypothetical fourth attempt would have returned. -/
theorem c3_retry_exhaustion (e : String) (out1 out2 : Nat → AttemptOutcome)
    (h1 : ∀ a, a < MAX_RETRIES → out1 a = .timeout)
    (h2 : ∀ a, a < MAX_RETRIES → out2 a = .connFailure false) :
    makeRequest e out1 =
      ⟨.error (timeoutFinalMsg (requestUrl e)), MAX_RETRIES,
        [RETRY_DELAY * 2 ^ 0, RETRY_DELAY * 2 ^ 1]⟩ ∧
    makeRequest e out2 =
      ⟨.error (connFinalMsg (requestUrl e)), MAX_RETRIES,
        [RETRY_DELAY * 2 ^ 0, RETRY_DELAY * 2 ^ 1]⟩ ∧
    containsSubstr (timeoutFinalMsg (requestUrl e)) "timed out" ∧
    containsSubstr (connFinalMsg (requestUrl e)) "Connection error" := by
  have s0 : attemptStep (requestUrl e) (out1 0) =
      .retryable (timeoutFinalMsg (requestUrl e)) := by
    rw [h1 0 (by norm_num [MAX_RETRIES])]
    rfl
  have s1 : attemptStep (requestUrl e) (out1 1) =
      .retryable (timeoutFinalMsg (requestUrl e)) := by
    rw [h1 1 (by norm_num [MAX_RETRIES])]
    rfl
  have s2 : attemptStep (requestUrl e) (out1 2) =
      .retryable (timeoutFinalMsg (requestUrl e)) := by
    rw [h1 2 (by norm_num [MAX_RETRIES])]
    rfl
  have t0 : attemptStep (requestUrl e) (out2 0) =
      .retryable (connFinalMsg (requestUrl e)) := by
    rw [h2 0 (by norm_num [MAX_RETRIES])]
    rfl
  have t1 : attemptStep (requestUrl e) (out2 1) =
      .retryable (connFinalMsg (requestUrl e)) := by
    rw [h2 1 (by norm_num [MAX_RETRIES])]
    rfl
  have t2 : attemptStep (requestUrl e) (out2 2) =
      .retryable (connFinalMsg (requestUrl e)) := by
    rw [h2 2 (by norm_num [MAX_RETRIES])]
    rfl
  refine ⟨?_, ?_, ?_, ?_⟩
  · simp [makeRequest, MAX_RETRIES, requestLoop, s0, s1, s2]
  · simp [makeRequest, MAX_RETRIES, requestLoop, t0, t1, t2]
  · unfold timeoutFinalMsg
    refine containsSubstr_append_left _ (containsSubstr_append_left _
      (containsSubstr_append_left _ ?_))
    decide
  · unfold connFinalMsg
    exact containsSubstr_append_left _ (by decide)

/-- Witness for c3_retry_exhaustion: transports that time out on every
attempt, respectively fail to connect (without SSL signature) on every
attempt. -/
theorem c3_witness :
    makeRequest "estadisticas/v3.0/monetarias" (fun _ => .timeout) =
      ⟨.error (timeoutFinalMsg (requestUrl "estadisticas/v3.0/monetarias")),
        MAX_RETRIES, [RETRY_DELAY * 2 ^ 0, RETRY_DELAY * 2 ^ 1]⟩ ∧
    makeRequest "estadisticas/v3.0/monetarias" (fun _ => .connFailure false) =
      ⟨.error (connFinalMsg (requestUrl "estadisticas/v3.0/monetarias")),
        MAX_RETRIES, [RETRY_DELAY * 2 ^ 0, RETRY_DELAY * 2 ^ 1]⟩ ∧
    containsSubstr
      (timeoutFinalMsg (requestUrl "estadisticas/v3.0/monetarias"))
      "timed out" ∧
    containsSubstr (connFinalMsg (requestUrl "estadisticas/v3.0/monetarias"))
      "Connection error" :=
  c3_retry_exhaustion "estadisticas/v3.0/monetarias"
    (fun _ => .timeout) (fun _ => .connFailure false)
    (fun _ _ => rfl) (fun _ _ => rfl)

/-- Claim C5: a 404 response makes _make_request raise on that same
attempt with no retry (one attempt, no sleeps), and the message contains
both the literal status code 404 and a human-readable not-found
indicator. -/
theorem c5_http404_immediate (e : String) (outcomes : Nat → AttemptOutcome)
    (body : JsonBody) (reason : String)
    (h : outcomes 0 = .response ⟨404, body, reason⟩) :
    makeRequest e outcomes =
      ⟨.error (notFoundMsg (requestUrl e) body), 1, []⟩ ∧
    containsSubstr (notFoundMsg (requestUrl e) body) "404" ∧
    containsSubstr (notFoundMsg (requestUrl e) body) "not found" := by
  have hbase : ∀ sub : String,
      containsSubstr "HTTP 404: Resource not found at " sub →
      containsSubstr (notFoundMsg (requestUrl e) body) sub := by
    intro sub hsub
    unfold notFoundMsg
    cases body with
    | invalid => exact containsSubstr_append_left _ hsub
    | valid em raw =>
        cases em with
        | none => exact containsSubstr_append_left _ hsub
        | some msgs =>
            exact containsSubstr_append_left _
              (containsSubstr_append_left _ hsub)
  refine ⟨?_, hbase "404" (by decide), hbase "not found" (by decide)⟩
  have s0 : attemptStep (requestUrl e) (outcomes 0) =
      .fatal (notFoundMsg (requestUrl e) body) := by
    rw [h]
    rfl
  simp [makeRequest, MAX_RETRIES, requestLoop, s0]

/-- Witness for c5_http404_immediate: a check-lookup endpoint returning a
plain 404 whose body decodes to JSON without errorMessages. -/
theorem c5_witness :
    makeRequest "cheques/v1.0/entidades"
        (fun _ => .response ⟨404, .valid none "x", "Not Found"⟩) =
      ⟨.error (notFoundMsg (requestUrl "cheques/v1.0/entidades")
        (.valid none "x")), 1, []⟩ ∧
    containsSubstr (notFoundMsg (requestUrl "cheques/v1.0/entidades")
      (.valid none "x")) "404" ∧
    containsSubstr (notFoundMsg (requestUrl "cheques/v1.0/entidades")
      (.valid none "x")) "not found" :=
  c5_http404_immediate "cheques/v1.0/entidades"
    (fun _ => .response ⟨404, .valid none "x", "Not Found"⟩)
    (.valid none "x") "Not Found" rfl

/-- Claim C6: a successful (2xx) response whose body is not valid JSON
makes _make_request raise the malformed-response-classified error on that
same attempt, with no retry (one attempt, no sleeps). -/
theorem c6_invalid_json_no_retry (e : String)
    (outcomes : Nat → AttemptOutcome) (status : Nat) (reason : String)
    (hs1 : 200 ≤ status) (hs2 : status < 300)
    (h : outcomes 0 = .response ⟨status, .invalid, reason⟩) :
    makeRequest e outcomes =
      ⟨.error (invalidJsonMsg (requestUrl e)), 1, []⟩ ∧
    containsSubstr (invalidJsonMsg (requestUrl e)) "Invalid JSON" := by
  have hse : statusIsError status = false := by
    simp only [statusIsError, Bool.and_eq_false_iff, decide_eq_false_iff_not]
    omega
  refine ⟨?_, ?_⟩
  · have s0 : attemptStep (requestUrl e) (outcomes 0) =
        .fatal (invalidJsonMsg (requestUrl e)) := by
      rw [h]
      simp [attemptStep, hse]
    simp [makeRequest, MAX_RETRIES, requestLoop, s0]
  · unfold invalidJsonMsg
    exact containsSubstr_append_left _ (by decide)

/-- Witness for c6_invalid_json_no_retry: a 200 response with an
undecodable body. -/
theorem c6_witness :
    makeRequest "estadisticas/v3.0/monetarias"
        (fun _ => .response ⟨200, .invalid, "OK"⟩) =
      ⟨.error (invalidJsonMsg (requestUrl "estadisticas/v3.0/monetarias")),
        1, []⟩ ∧
    containsSubstr
      (invalidJsonMsg (requestUrl "estadisticas/v3.0/monetarias"))
      "Invalid JSON" :=
  c6_invalid_json_no_retry "estadisticas/v3.0/monetarias"
    (fun _ => .response ⟨200, .invalid, "OK"⟩) 200 "OK"
    (by norm_num) (by norm_num) rfl

/-- Claim C7: a connection error bearing an SSL signature makes
_make_request raise the SSL-verification-classified error immediately on
the attempt where it occurs, however many retries remain: it makes a + 1
attempts and sleeps only for the a earlier transient failures. -/
theorem c7_ssl_no_retry (e : String) (outcomes : Nat → AttemptOutcome)
    (a : Nat) (ha : a < MAX_RETRIES)
    (hpre : ∀ i, i < a → isRetryable (outcomes i) = true)
    (hssl : outcomes a = .connFailure true) :
    (makeRequest e outcomes).result = .error (sslMsg (requestUrl e)) ∧
    (makeRequest e outcomes).attemptsMade = a + 1 ∧
    (makeRequest e outcomes).sleeps.length = a := by
  have ha3 : a < 3 := by simpa [MAX_RETRIES] using ha
  interval_cases a
  · have s0 : attemptStep (requestUrl e) (outcomes 0) =
        .fatal (sslMsg (requestUrl e)) := by
      rw [hssl]
      rfl
    simp [makeRequest, MAX_RETRIES, requestLoop, s0]
  · obtain ⟨m0, hm0⟩ := attemptStep_retryable (requestUrl e) (outcomes 0)
      (hpre 0 (by norm_num))
    have s1 : attemptStep (requestUrl e) (outcomes 1) =
        .fatal (sslMsg (requestUrl e)) := by
      rw [hssl]
      rfl
    simp [makeRequest, MAX_RETRIES, requestLoop, hm0, s1]
  · obtain ⟨m0, hm0⟩ := attemptStep_retryable (requestUrl e) (outcomes 0)
      (hpre 0 (by norm_num))
    obtain ⟨m1, hm1⟩ := attemptStep_retryable (requestUrl e) (outcomes 1)
      (hpre 1 (by norm_num))
    have s2 : attemptStep (requestUrl e) (outcomes 2) =
        .fatal (sslMsg (requestUrl e)) := by
      rw [hssl]
      rfl
    simp [makeRequest, MAX_RETRIES, requestLoop, hm0, hm1, s2]

/-- Witness for c7_ssl_no_retry: a timeout on attempt 0 followed by an
SSL-signature connection failure on attempt 1, with one retry still
remaining when the SSL failure raises. -/
theorem c7_witness :
    (makeRequest "cheques/v1.0/entidades"
        (fun i => if i = 0 then .timeout else .connFailure true)).result =
      .error (sslMsg (requestUrl "cheques/v1.0/entidades")) ∧
    (makeRequest "cheques/v1.0/entidades"
        (fun i => if i = 0 then .timeout else .connFailure true)).attemptsMade
      = 1 + 1 ∧
    (makeRequest "cheques/v1.0/entidades"
        (fun i => if i = 0 then .timeout else .connFailure true)).sleeps.length
      = 1 :=
  c7_ssl_no_retry "cheques/v1.0/entidades"
    (fun i => if i = 0 then .timeout else .connFailure true) 1
    (by norm_num [MAX_RETRIES])
    (by
      intro i hi
      interval_cases i
      rfl)
    rfl

end Claims
